import Mathlib

/-!
Verification development for `repl-enhancer` (`src/repl.py`).

The program wraps a line-oriented interactive program: it spawns the target
under a pseudo-terminal (`pexpect.spawn`), waits for the target's prompt
(`p.expect(args.cmd_prompt)`), prints the pre-prompt output
(`print(p.before.decode('utf-8').strip())`), reads one line from the user
through a `prompt_toolkit` session (`run`), and forwards non-exit lines with
`p.sendline(answer)`.  The loop breaks when the answer is `None` (the editor's
`c-d` exit action) or the literal string `"exit"`, then prints a closing
message and calls `p.close()`.

We shallowly embed the pieces the claims are about:

* strict UTF-8 decoding, as performed by Python's `bytes.decode('utf-8')`
  (the call in `repl.py` passes no `errors=` argument, so the strict codec is
  used and invalid input raises `UnicodeDecodeError`);
* Python's `str.strip()` (Unicode whitespace trimmed from both ends);
* the prompt matcher realised by `pexpect.spawn.expect`: the pattern string is
  compiled as a regular expression (`re.compile(..., re.DOTALL)`), the driver
  accumulates output in a buffer and after each read searches the whole buffer
  for the leftmost match; `p.before` is the buffer up to the match start.  We
  embed the fragment of Python regexes the claims exercise: alternations of
  literals (`w1|w2|...`; a pattern with no `|` is a single literal);
* the `main` session loop of `repl.py` lines 110-119, driven by an explicit
  script of environment events (the target's behaviour at each `expect`, the
  user's answer, the outcome of each `sendline`), recording what is printed,
  what is sent, whether `p.close()` ran and whether the closing message ran;
* the editor application state touched by the `f4` key binding of `run`
  (lines 69-77), which toggles `app.editing_mode` between Vi and Emacs.
-/

/-! ## Strict UTF-8 decoding (Python `bytes.decode('utf-8')`) -/

/-- A continuation byte `0x80..0xBF`. -/
def isCont (b : Nat) : Bool := decide (0x80 ≤ b ∧ b ≤ 0xBF)

/-- Admissible first continuation byte after a three-byte lead: Python's
strict UTF-8 codec rejects overlong forms (`0xE0` requires `0xA0..0xBF`) and
surrogates (`0xED` requires `0x80..0x9F`). -/
def cont1ok3 (b0 b1 : Nat) : Bool :=
  if b0 = 0xE0 then decide (0xA0 ≤ b1 ∧ b1 ≤ 0xBF)
  else if b0 = 0xED then decide (0x80 ≤ b1 ∧ b1 ≤ 0x9F)
  else isCont b1

/-- Admissible first continuation byte after a four-byte lead: `0xF0`
requires `0x90..0xBF` (no overlongs), `0xF4` requires `0x80..0x8F`
(code points stop at `U+10FFFF`). -/
def cont1ok4 (b0 b1 : Nat) : Bool :=
  if b0 = 0xF0 then decide (0x90 ≤ b1 ∧ b1 ≤ 0xBF)
  else if b0 = 0xF4 then decide (0x80 ≤ b1 ∧ b1 ≤ 0x8F)
  else isCont b1

/-- Strict UTF-8 decoding of a byte list to code points, `none` on the inputs
Python's strict `utf-8` codec rejects (stray continuation bytes, truncated
sequences, overlong encodings, surrogates, code points above `U+10FFFF`). -/
def utf8DecodeCps : List Nat → Option (List Nat)
  | [] => some []
  | b0 :: t =>
    if b0 ≤ 0x7F then
      (utf8DecodeCps t).map (fun cs => b0 :: cs)
    else if 0xC2 ≤ b0 ∧ b0 ≤ 0xDF then
      match t with
      | b1 :: t1 =>
        if isCont b1 then
          (utf8DecodeCps t1).map (fun cs => ((b0 - 0xC0) * 0x40 + (b1 - 0x80)) :: cs)
        else none
      | [] => none
    else if 0xE0 ≤ b0 ∧ b0 ≤ 0xEF then
      match t with
      | b1 :: b2 :: t2 =>
        if cont1ok3 b0 b1 ∧ isCont b2 then
          (utf8DecodeCps t2).map
            (fun cs => ((b0 - 0xE0) * 0x1000 + (b1 - 0x80) * 0x40 + (b2 - 0x80)) :: cs)
        else none
      | _ => none
    else if 0xF0 ≤ b0 ∧ b0 ≤ 0xF4 then
      match t with
      | b1 :: b2 :: b3 :: t3 =>
        if cont1ok4 b0 b1 ∧ isCont b2 ∧ isCont b3 then
          (utf8DecodeCps t3).map
            (fun cs => ((b0 - 0xF0) * 0x40000 + (b1 - 0x80) * 0x1000
              + (b2 - 0x80) * 0x40 + (b3 - 0x80)) :: cs)
        else none
      | _ => none
    else none

/-- `bytes.decode('utf-8')` as used at `repl.py:112`: strict decoding to a
string, raising (`none`) on invalid input. -/
def utf8Decode (bs : List Nat) : Option String :=
  (utf8DecodeCps bs).map (fun cs => String.mk (cs.map Char.ofNat))

/-! ## Python `str.strip()` -/

/-- The code points Python's `str.isspace()` (and hence `str.strip()` with no
argument) treats as whitespace. -/
def isPySpace (c : Char) : Bool :=
  ([9, 10, 11, 12, 13, 28, 29, 30, 31, 32, 0x85, 0xA0, 0x1680,
    0x2000, 0x2001, 0x2002, 0x2003, 0x2004, 0x2005, 0x2006, 0x2007,
    0x2008, 0x2009, 0x200A, 0x2028, 0x2029, 0x202F, 0x205F, 0x3000] : List Nat).contains c.toNat

/-- `str.strip()` on a character list: drop whitespace from both ends. -/
def pyStripList (l : List Char) : List Char :=
  ((l.dropWhile isPySpace).reverse.dropWhile isPySpace).reverse

/-- Python `str.strip()` as used at `repl.py:112`. -/
def pyStrip (s : String) : String := String.mk (pyStripList s.toList)

/-! ## The prompt matcher of `pexpect.spawn.expect`

`p.expect(args.cmd_prompt)` (`repl.py:111`) compiles the prompt string as a
regular expression and searches the accumulated output buffer for its leftmost
match after each read.  We embed the fragment the prompt strings of the claims
live in: alternations of literal strings.  `splitAlts` is the compilation step
(`|` separates alternatives; a string without `|` is one literal), `reSearchIdx`
is `re.search`'s leftmost-match start position, and `feedChunks` is the
accumulate-and-search loop: it returns `p.before` (the buffer up to the match
start) paired with the matched flag. -/

/-- Compile an alternation-of-literals pattern: split the character list on
`|`, yielding the list of literal alternatives (in order). -/
def splitAlts : List Char → List (List Char)
  | [] => [[]]
  | c :: t =>
    if c = '|' then [] :: splitAlts t
    else
      match splitAlts t with
      | [] => [[c]]
      | a :: as => (c :: a) :: as

/-- `re.compile` on the alternation-of-literals fragment, starting from the
prompt string the user supplied on the command line. -/
def compilePattern (s : String) : List (List Char) := splitAlts s.toList

/-- Does some alternative match at the current position (i.e. is some
alternative a prefix of `s`)?  Python's `re` tries the alternatives in
order at each position. -/
def someAltAt (alts : List (List Char)) (s : List Char) : Bool :=
  alts.any (fun a => a.isPrefixOf s)

/-- Start index of the leftmost match of the alternation in `s`
(`re.search` semantics: positions scanned left to right). -/
def reSearchIdx (alts : List (List Char)) : List Char → Option Nat
  | [] => if someAltAt alts [] then some 0 else none
  | c :: t =>
    if someAltAt alts (c :: t) then some 0
    else (reSearchIdx alts t).map (· + 1)

/-- The `expect` read loop: feed chunks one at a time into the rolling
buffer `buf`; after each append search the whole buffer for the leftmost
match.  On a match, return (`p.before`, `true`); if the chunks run out with
no match, return the accumulated buffer and `false`. -/
def feedChunks (alts : List (List Char)) : List Char → List (List Char) → List Char × Bool
  | buf, [] => (buf, false)
  | buf, c :: cs =>
    match reSearchIdx alts (buf ++ c) with
    | some i => ((buf ++ c).take i, true)
    | none => feedChunks alts (buf ++ c) cs

/-- Spec-modelled, for comparison with the code's matcher: the spec's words
say "literal matching is a pure substring search".  Leftmost index at which
the literal `w` occurs in `s` as a contiguous substring. -/
def litFirstOccurrence (w : List Char) : List Char → Option Nat
  | [] => if w = [] then some 0 else none
  | c :: t =>
    if w.isPrefixOf (c :: t) then some 0
    else (litFirstOccurrence w t).map (· + 1)

/-- Spec-modelled pure substring search on the whole stream: emit the text
before the first occurrence of the literal and report whether it occurred. -/
def litSubstringSearch (w s : List Char) : List Char × Bool :=
  match litFirstOccurrence w s with
  | some i => (s.take i, true)
  | none => (s, false)

/-! ## The session loop (`main`, `repl.py:110-119`)

Each iteration of the `while True` loop:

1. `p.expect(args.cmd_prompt)` — the environment either delivers output up to
   a prompt match (`TargetEvent.output bs`, with `bs` the bytes of `p.before`)
   or closes the stream first, in which case `pexpect` raises `EOF` (the
   pattern list does not contain `pexpect.EOF`), an exception nothing in
   `main` catches;
2. `print(p.before.decode('utf-8').strip())` — strict decode (raises
   `UnicodeDecodeError` on invalid bytes, uncaught), strip, print with a
   trailing newline;
3. `answer = run(...)` — the user either submits a line or triggers the
   editor's `c-d` exit action, which calls `event.app.exit()` so that
   `session.prompt` returns `None`;
4. `if (answer is None) or (answer == 'exit'): break`;
5. `p.sendline(answer)` — if the target has already gone away the write
   raises (`BrokenPipe`/`OSError`), again uncaught.

After the loop, `print('Tạm biệt.')` then `p.close()` — reached only by the
`break`, since every exception propagates past lines 118-119. -/

/-- What the target does at one `p.expect` call. -/
inductive TargetEvent where
  | output (bs : List Nat)
  | eof
deriving DecidableEq

/-- What `run` (the `prompt_toolkit` prompt) returns. -/
inductive UserAnswer where
  | line (s : String)
  | sessionEnd
deriving DecidableEq

/-- Whether a `p.sendline` write succeeds or hits a closed pty. -/
inductive SendOutcome where
  | ok
  | brokenPipe
deriving DecidableEq

/-- One iteration's worth of environment behaviour. -/
structure Iter where
  target : TargetEvent
  answer : UserAnswer
  send : SendOutcome
deriving DecidableEq

/-- The Python exceptions that can escape the loop. -/
inductive Exc where
  | eofReached
  | decodeError
  | brokenPipeError
deriving DecidableEq

/-- How a run ends: normal `break` (reaching lines 118-119), an uncaught
exception, or still inside the loop when the observed script ends. -/
inductive Outcome where
  | terminated
  | raised (e : Exc)
  | blocked
deriving DecidableEq

/-- Observable trace of a run of `main`'s loop. -/
structure RunResult where
  outcome : Outcome
  printed : List String
  sent : List String
  closedOnce : Bool
  closingMsgPrinted : Bool
deriving DecidableEq

/-- The session loop of `main` (`repl.py:110-119`), driven by a script of
environment events.  `printed` collects the texts written by line 112
(decoded, stripped, newline appended by `print`); `sent` the lines forwarded
by `p.sendline`; `closedOnce` whether `p.close()` ran; `closingMsgPrinted`
whether the closing message of line 118 ran. -/
def mainLoop : List Iter → RunResult
  | [] => ⟨.blocked, [], [], false, false⟩
  | it :: rest =>
    match it.target with
    | .eof => ⟨.raised .eofReached, [], [], false, false⟩
    | .output bs =>
      match utf8Decode bs with
      | none => ⟨.raised .decodeError, [], [], false, false⟩
      | some txt =>
        match it.answer with
        | .sessionEnd => ⟨.terminated, [pyStrip txt ++ "\n"], [], true, true⟩
        | .line s =>
          if s = "exit" then ⟨.terminated, [pyStrip txt ++ "\n"], [], true, true⟩
          else
            match it.send with
            | .brokenPipe => ⟨.raised .brokenPipeError, [pyStrip txt ++ "\n"], [], false, false⟩
            | .ok =>
              let r := mainLoop rest
              ⟨r.outcome, (pyStrip txt ++ "\n") :: r.printed, s :: r.sent,
                r.closedOnce, r.closingMsgPrinted⟩

/-- An iteration the loop passes through without stopping: prompt matched,
bytes decoded, a non-exit line submitted, send succeeded. -/
def OkStep (it : Iter) : Prop :=
  ∃ bs txt s, it.target = .output bs ∧ utf8Decode bs = some txt ∧
    it.answer = .line s ∧ s ≠ "exit" ∧ it.send = .ok

/-- Text printed by line 112 during an iteration (used to describe the trace
of a prefix of passed-through iterations). -/
def shownOf (it : Iter) : String :=
  match it.target with
  | .output bs =>
    match utf8Decode bs with
    | some txt => pyStrip txt ++ "\n"
    | none => ""
  | .eof => ""

/-- Line forwarded by `p.sendline` during a passed-through iteration. -/
def sentOf (it : Iter) : String :=
  match it.answer with
  | .line s => s
  | .sessionEnd => ""

/-! ## The editor state touched by the `f4` binding (`run`, `repl.py:69-77`) -/

/-- `prompt_toolkit.enums.EditingMode`, the two variants used by the code. -/
inductive EditingMode where
  | vi
  | emacs
deriving DecidableEq

/-- The slice of the `prompt_toolkit` application state the `f4` handler can
observe or affect: the editing mode it reassigns, and the current buffer
text and cursor position, which it does not mention. -/
structure AppState where
  editingMode : EditingMode
  bufferText : String
  cursorPosition : Nat
deriving DecidableEq

/-- The `f4` key-binding handler of `run` (`repl.py:69-77`): if the mode is
Vi set it to Emacs, otherwise set it to Vi.  No other field is assigned. -/
def toggleEditingMode (st : AppState) : AppState :=
  if st.editingMode = .vi then { st with editingMode := .emacs }
  else { st with editingMode := .vi }

/-! ## Lemmas about the matcher -/

theorem someAltAt_singleton (w s : List Char) :
    someAltAt [w] s = w.isPrefixOf s := by
  simp [someAltAt]

theorem prefix_of_append_of_length_le {w l r : List Char}
    (hle : w.length ≤ l.length) (h : w <+: l ++ r) : w <+: l := by
  rw [List.prefix_iff_eq_take, List.take_append_of_le_length hle] at h
  exact h ▸ List.take_prefix _ _

theorem reSearchIdx_singleton_bound {w : List Char} :
    ∀ {s : List Char} {i : Nat}, reSearchIdx [w] s = some i → i + w.length ≤ s.length := by
  intro s
  induction s with
  | nil =>
    intro i h
    rw [reSearchIdx] at h
    split at h
    · rename_i hp
      rw [someAltAt_singleton, List.isPrefixOf_iff_prefix] at hp
      have hw := List.prefix_nil.mp hp
      cases h
      simp [hw]
    · cases h
  | cons c t ih =>
    intro i h
    rw [reSearchIdx] at h
    split at h
    · rename_i hp
      rw [someAltAt_singleton, List.isPrefixOf_iff_prefix] at hp
      cases h
      simpa using hp.length_le
    · rw [Option.map_eq_some'] at h
      obtain ⟨j, hj, rfl⟩ := h
      have := ih hj
      simp only [List.length_cons]
      omega

theorem reSearchIdx_singleton_append {w : List Char} :
    ∀ {s : List Char} {i : Nat} (r : List Char),
      reSearchIdx [w] s = some i → reSearchIdx [w] (s ++ r) = some i := by
  intro s
  induction s with
  | nil =>
    intro i r h
    rw [reSearchIdx] at h
    split at h
    · rename_i hp
      rw [someAltAt_singleton, List.isPrefixOf_iff_prefix] at hp
      have hw := List.prefix_nil.mp hp
      cases h
      subst hw
      cases r <;> simp [reSearchIdx, someAltAt, List.isPrefixOf]
    · cases h
  | cons c t ih =>
    intro i r h
    rw [reSearchIdx] at h
    split at h
    · rename_i hp
      rw [someAltAt_singleton, List.isPrefixOf_iff_prefix] at hp
      cases h
      have hyes : someAltAt [w] (c :: (t ++ r)) = true := by
        rw [someAltAt_singleton, List.isPrefixOf_iff_prefix]
        have hp' := hp.trans (List.prefix_append (c :: t) r)
        rw [List.cons_append] at hp'
        exact hp'
      rw [List.cons_append, reSearchIdx, if_pos hyes]
    · rename_i hp
      rw [Option.map_eq_some'] at h
      obtain ⟨j, hj, rfl⟩ := h
      have hb : j + w.length ≤ t.length := reSearchIdx_singleton_bound hj
      have hno : ¬someAltAt [w] (c :: (t ++ r)) = true := by
        rw [someAltAt_singleton, List.isPrefixOf_iff_prefix]
        intro hcon
        apply hp
        rw [someAltAt_singleton, List.isPrefixOf_iff_prefix]
        have hle : w.length ≤ (c :: t).length := by
          simp only [List.length_cons]
          omega
        rw [← List.cons_append] at hcon
        exact prefix_of_append_of_length_le hle hcon
      rw [List.cons_append, reSearchIdx, if_neg hno, ih r hj]
      rfl

theorem feedChunks_singleton_flatten (w : List Char) :
    ∀ (cs : List (List Char)) (buf : List Char), reSearchIdx [w] buf = none →
      feedChunks [w] buf cs = feedChunks [w] buf [cs.flatten] := by
  intro cs
  induction cs with
  | nil =>
    intro buf h
    simp [feedChunks, List.append_nil, h]
  | cons c cs ih =>
    intro buf h
    cases hm : reSearchIdx [w] (buf ++ c) with
    | some i =>
      have hb : i + w.length ≤ (buf ++ c).length := reSearchIdx_singleton_bound hm
      have hm' : reSearchIdx [w] (buf ++ (c :: cs).flatten) = some i := by
        rw [List.flatten_cons, ← List.append_assoc]
        exact reSearchIdx_singleton_append cs.flatten hm
      have htake : List.take i (buf ++ (c :: cs).flatten) = List.take i (buf ++ c) := by
        rw [List.flatten_cons, ← List.append_assoc]
        exact List.take_append_of_le_length (by omega)
      simp only [feedChunks, hm, hm', htake]
    | none =>
      have hL : feedChunks [w] buf (c :: cs) = feedChunks [w] (buf ++ c) cs := by
        simp only [feedChunks, hm]
      rw [hL, ih (buf ++ c) hm]
      simp only [feedChunks, List.flatten_cons, List.append_assoc]

theorem splitAlts_no_bar : ∀ {l : List Char}, '|' ∉ l → splitAlts l = [l] := by
  intro l
  induction l with
  | nil => intro _; rfl
  | cons c t ih =>
    intro h
    have hc : ¬(c = '|') := fun hc => h (hc ▸ List.mem_cons_self c t)
    have ht : '|' ∉ t := fun m => h (List.mem_cons_of_mem _ m)
    rw [splitAlts, if_neg hc, ih ht]

theorem reSearchIdx_singleton_eq_lit (w : List Char) :
    ∀ s : List Char, reSearchIdx [w] s = litFirstOccurrence w s := by
  intro s
  induction s with
  | nil =>
    cases w <;> simp [reSearchIdx, litFirstOccurrence, someAltAt, List.isPrefixOf]
  | cons c t ih =>
    rw [reSearchIdx, litFirstOccurrence, someAltAt_singleton, ih]

/-! ## Lemmas about the session loop -/

theorem mainLoop_cons_ok {bs : List Nat} {txt : String} {s : String}
    (hdec : utf8Decode bs = some txt) (hs : s ≠ "exit") (rest : List Iter) :
    mainLoop (⟨.output bs, .line s, .ok⟩ :: rest) =
      ⟨(mainLoop rest).outcome, (pyStrip txt ++ "\n") :: (mainLoop rest).printed,
        s :: (mainLoop rest).sent, (mainLoop rest).closedOnce,
        (mainLoop rest).closingMsgPrinted⟩ := by
  simp [mainLoop, hdec, hs]

theorem mainLoop_append_ok :
    ∀ {pre : List Iter}, (∀ it ∈ pre, OkStep it) → ∀ rest : List Iter,
      mainLoop (pre ++ rest) =
        ⟨(mainLoop rest).outcome, pre.map shownOf ++ (mainLoop rest).printed,
          pre.map sentOf ++ (mainLoop rest).sent, (mainLoop rest).closedOnce,
          (mainLoop rest).closingMsgPrinted⟩ := by
  intro pre
  induction pre with
  | nil => intro _ rest; rfl
  | cons it pre ih =>
    intro hpre rest
    obtain ⟨bs, txt, s, ht, hdec, ha, hs, hsend⟩ := hpre it (List.mem_cons_self it pre)
    have hpre' : ∀ x ∈ pre, OkStep x := fun x hx => hpre x (List.mem_cons_of_mem _ hx)
    obtain ⟨tg, ans, snd⟩ := it
    simp only at ht ha hsend
    subst ht ha hsend
    rw [List.cons_append, mainLoop_cons_ok hdec hs, ih hpre' rest]
    simp [shownOf, sentOf, hdec]

/-! ## Claim C1: chunk-boundary invariance of the prompt matcher -/

/-- C1 (counterexample): the claim as stated quantifies over every prompt
pattern, but `p.expect` compiles the pattern as a regular expression and
searches the whole accumulated buffer for the leftmost match after each read.
For the pattern `"xba|b"` and the stream `"xba"`, feeding the chunks
`"xb"`, `"a"` stops at the shorter alternative (`emitted = "x"`), while
feeding the whole stream at once finds the earlier long match
(`emitted = ""`): the `(emitted, matched)` pairs differ. -/
theorem C1_claim_counterexample :
    feedChunks (compilePattern "xba|b") [] [String.toList "xb", String.toList "a"] ≠
      feedChunks (compilePattern "xba|b") [] [[String.toList "xb", String.toList "a"].flatten] := by
  decide

/-- C1 (amended): for a prompt pattern that is a single nonempty literal
(no `|` alternation in the modelled regex fragment), feeding the chunks
one-by-one to the matcher yields exactly the same `(emitted, matched)` pair
as feeding the whole stream in a single call. -/
theorem C1_chunk_invariance_literal_pattern (s : String) (hs : s.toList ≠ [])
    (hbar : '|' ∉ s.toList) (cs : List (List Char)) :
    feedChunks (compilePattern s) [] cs = feedChunks (compilePattern s) [] [cs.flatten] := by
  simp only [compilePattern]
  rw [splitAlts_no_bar hbar]
  apply feedChunks_singleton_flatten
  cases h : s.toList with
  | nil => exact absurd h hs
  | cons c t => simp [reSearchIdx, someAltAt, List.isPrefixOf]

/-- C1 (witness): the invariance theorem applied to the spec's own example,
pattern `"> "` arriving as `">"` then `" "`. -/
theorem C1_chunk_invariance_literal_pattern_witness :
    feedChunks (compilePattern "> ") [] [String.toList ">", String.toList " "] =
      feedChunks (compilePattern "> ") [] [[String.toList ">", String.toList " "].flatten] :=
  C1_chunk_invariance_literal_pattern "> " (by decide) (by decide)
    [String.toList ">", String.toList " "]

/-! ## Claim C2: decoding policy of the wait-for-prompt/print step -/

/-- C2 (counterexample): `repl.py:112` calls `p.before.decode('utf-8')` with
no `errors='replace'` argument, so the strict codec is used.  On the chunk
`[0xFF]` the decode fails and the resulting `UnicodeDecodeError` aborts the
session loop instead of being replaced by a substitute character. -/
theorem C2_claim_counterexample :
    utf8Decode [0xFF] = none ∧
      (mainLoop [⟨.output [0xFF], .line "print(1)", .ok⟩]).outcome =
        .raised .decodeError ∧
      (mainLoop [⟨.output [0xFF], .line "print(1)", .ok⟩]).printed = [] := by
  decide

/-- C2 (amended): for every output chunk whose bytes are not valid UTF-8,
the strict decode at `repl.py:112` raises, and the exception propagates out
of the session loop: nothing is printed or sent, the closing message is not
printed and the handle is not closed. -/
theorem C2_strict_decode_error_propagates (bs : List Nat) (hdec : utf8Decode bs = none)
    (ans : UserAnswer) (snd : SendOutcome) (rest : List Iter) :
    mainLoop (⟨.output bs, ans, snd⟩ :: rest) =
      ⟨.raised .decodeError, [], [], false, false⟩ := by
  simp [mainLoop, hdec]

/-- C2 (witness): the amended theorem applied to the invalid byte `0xFF`. -/
theorem C2_strict_decode_error_propagates_witness :
    mainLoop [⟨.output [0xFF], .line "x", .ok⟩] =
      ⟨.raised .decodeError, [], [], false, false⟩ :=
  C2_strict_decode_error_propagates [0xFF] (by decide) (.line "x") .ok []

/-! ## Claim C3: end of stream while awaiting the prompt -/

/-- C3 (counterexample): when the target closes its output before the prompt
matches, `p.expect` raises `pexpect.EOF`, which nothing in `main` catches:
the loop does not reach `Terminated` gracefully — the closing message is not
printed, `p.close()` is not executed, and the run ends with an uncaught
exception. -/
theorem C3_claim_counterexample :
    (mainLoop [⟨.eof, .line "next", .ok⟩]).outcome ≠ .terminated ∧
      (mainLoop [⟨.eof, .line "next", .ok⟩]).closingMsgPrinted = false ∧
      (mainLoop [⟨.eof, .line "next", .ok⟩]).closedOnce = false := by
  decide

/-- C3 (amended): after any prefix of completed iterations, an end of stream
at the `p.expect` call makes the loop raise `EOF`: no further input is
forwarded (only the prefix's lines were sent), but the closing message is
never printed and the process handle is never closed — the run ends in an
uncaught exception rather than a graceful `Terminated`. -/
theorem C3_eof_exception_propagates (pre : List Iter) (hpre : ∀ it ∈ pre, OkStep it)
    (ans : UserAnswer) (snd : SendOutcome) (rest : List Iter) :
    mainLoop (pre ++ ⟨.eof, ans, snd⟩ :: rest) =
      ⟨.raised .eofReached, pre.map shownOf, pre.map sentOf, false, false⟩ := by
  rw [mainLoop_append_ok hpre]
  simp [mainLoop]

/-- C3 (witness): one completed iteration, then the target closes its
stream. -/
theorem C3_eof_exception_propagates_witness :
    mainLoop ([⟨.output [104, 105], .line "1+1", .ok⟩] ++ ⟨.eof, .sessionEnd, .ok⟩ :: []) =
      ⟨.raised .eofReached, [⟨.output [104, 105], .line "1+1", .ok⟩].map shownOf,
        [⟨.output [104, 105], .line "1+1", .ok⟩].map sentOf, false, false⟩ :=
  C3_eof_exception_propagates [⟨.output [104, 105], .line "1+1", .ok⟩]
    (by
      intro it hit
      rw [List.mem_singleton] at hit
      subst hit
      exact ⟨[104, 105], "hi", "1+1", rfl, by decide, rfl, by decide, rfl⟩)
    .sessionEnd .ok []

/-! ## Claim C4: every exit path closes the handle exactly once -/

/-- C4 (counterexample): an exit path on which the handle is not closed: an
invalid-UTF-8 chunk makes the loop exit via an uncaught `UnicodeDecodeError`
with `p.close()` never executed. -/
theorem C4_claim_counterexample :
    (mainLoop [⟨.output [0xC0], .line "a", .ok⟩]).outcome = .raised .decodeError ∧
      (mainLoop [⟨.output [0xC0], .line "a", .ok⟩]).closedOnce = false := by
  decide

/-- C4 (amended): the handle is closed (exactly once, and with the closing
message printed) precisely on the normal exit paths — the literal `"exit"`
line or the editor's exit action reaching the `break`.  On every
error-triggered exit path (end of stream, decode error, broken pipe) the
exception propagates past lines 118-119 and `p.close()` never runs. -/
theorem C4_close_iff_normal_termination (script : List Iter) :
    ((mainLoop script).closedOnce = true ↔ (mainLoop script).outcome = .terminated) ∧
      ((mainLoop script).closingMsgPrinted = true ↔
        (mainLoop script).outcome = .terminated) := by
  induction script with
  | nil => simp [mainLoop]
  | cons it rest ih =>
    obtain ⟨tg, ans, snd⟩ := it
    cases tg with
    | eof => simp [mainLoop]
    | output bs =>
      cases hdec : utf8Decode bs with
      | none => simp [mainLoop, hdec]
      | some txt =>
        cases ans with
        | sessionEnd => simp [mainLoop, hdec]
        | line s =>
          by_cases hs : s = "exit"
          · simp [mainLoop, hdec, hs]
          · cases snd with
            | brokenPipe => simp [mainLoop, hdec, hs]
            | ok => simpa [mainLoop, hdec, hs] using ih

/-! ## Claim C5: BrokenPipe on send -/

/-- C5 (counterexample): a run in which the user submits a non-exit line and
the `p.sendline` write hits a closed pty: `main` has no handler around line
116, so the error propagates — the loop does not transition to a graceful
`Terminated`. -/
theorem C5_claim_counterexample :
    (mainLoop [⟨.output [], .line "ls", .brokenPipe⟩]).outcome =
        .raised .brokenPipeError ∧
      (mainLoop [⟨.output [], .line "ls", .brokenPipe⟩]).outcome ≠ .terminated := by
  decide

/-- C5 (amended): when a non-exit line is submitted and the send raises
`BrokenPipe`, the session loop propagates the error: the run ends with the
uncaught exception, the line is not recorded as sent, the closing message is
not printed and the handle is not closed. -/
theorem C5_broken_pipe_propagates (bs : List Nat) (txt : String)
    (hdec : utf8Decode bs = some txt) (s : String) (hs : s ≠ "exit") (rest : List Iter) :
    mainLoop (⟨.output bs, .line s, .brokenPipe⟩ :: rest) =
      ⟨.raised .brokenPipeError, [pyStrip txt ++ "\n"], [], false, false⟩ := by
  simp [mainLoop, hdec, hs]

/-- C5 (witness): the amended theorem at a concrete run. -/
theorem C5_broken_pipe_propagates_witness :
    mainLoop [⟨.output [], .line "ls", .brokenPipe⟩] =
      ⟨.raised .brokenPipeError, [pyStrip "" ++ "\n"], [], false, false⟩ :=
  C5_broken_pipe_propagates [] "" (by decide) "ls" (by decide) []

/-! ## Claim C6: the exit line and the exit action terminate the loop -/

/-- C6: in any session state (any prefix of completed iterations, any
pending rest of the script), once the prompt has matched, submitting the
literal line `"exit"` or triggering the editor's exit action (which makes
`session.prompt` return `None`) terminates the loop within that iteration:
the outcome is `Terminated`, nothing further is read or sent, the closing
message is printed and `p.close()` runs. -/
theorem C6_exit_terminates_in_one_iteration (pre : List Iter)
    (hpre : ∀ it ∈ pre, OkStep it) (bs : List Nat) (txt : String)
    (hdec : utf8Decode bs = some txt) (ans : UserAnswer)
    (hans : ans = .sessionEnd ∨ ans = .line "exit") (snd : SendOutcome)
    (rest : List Iter) :
    mainLoop (pre ++ ⟨.output bs, ans, snd⟩ :: rest) =
      ⟨.terminated, pre.map shownOf ++ [pyStrip txt ++ "\n"], pre.map sentOf,
        true, true⟩ := by
  rw [mainLoop_append_ok hpre]
  rcases hans with rfl | rfl
  · simp [mainLoop, hdec]
  · simp [mainLoop, hdec]

/-- C6 (witness): the literal `"exit"` line terminates the loop even though
the script continues after it. -/
theorem C6_exit_terminates_in_one_iteration_witness :
    mainLoop (([] : List Iter) ++ ⟨.output [104, 105], .line "exit", .ok⟩ ::
        [⟨.eof, .sessionEnd, .ok⟩]) =
      ⟨.terminated, ([] : List Iter).map shownOf ++ [pyStrip "hi" ++ "\n"],
        ([] : List Iter).map sentOf, true, true⟩ :=
  C6_exit_terminates_in_one_iteration [] (by simp) [104, 105] "hi" (by decide)
    (.line "exit") (Or.inr rfl) .ok [⟨.eof, .sessionEnd, .ok⟩]

/-! ## Claim C7: pre-prompt output is printed verbatim -/

/-- C7 (counterexample): `repl.py:112` prints
`p.before.decode('utf-8').strip()`, not the decoded chunk itself: for the
chunk `"  hi  "` the text written to the terminal is `"hi\n"` (surrounding
whitespace stripped by `.strip()`, newline appended by `print`), not the
verbatim `"  hi  "`. -/
theorem C7_claim_counterexample :
    utf8Decode [32, 32, 104, 105, 32, 32] = some "  hi  " ∧
      (mainLoop [⟨.output [32, 32, 104, 105, 32, 32], .sessionEnd, .ok⟩]).printed =
        ["hi\n"] ∧
      ("hi\n" : String) ≠ "  hi  " := by
  decide

/-- C7 (amended): before each input prompt the loop writes the pre-prompt
chunk to the terminal after stripping leading and trailing whitespace from
the decoded text and appending a newline: the first text printed in the
iteration is `pyStrip txt ++ "\n"`, not the decoded chunk verbatim. -/
theorem C7_printed_head_is_stripped_decoded (bs : List Nat) (txt : String)
    (hdec : utf8Decode bs = some txt) (ans : UserAnswer) (snd : SendOutcome)
    (rest : List Iter) :
    (mainLoop (⟨.output bs, ans, snd⟩ :: rest)).printed.head? =
      some (pyStrip txt ++ "\n") := by
  cases ans with
  | sessionEnd => simp [mainLoop, hdec]
  | line s =>
    by_cases hs : s = "exit"
    · simp [mainLoop, hdec, hs]
    · cases snd with
      | brokenPipe => simp [mainLoop, hdec, hs]
      | ok => simp [mainLoop, hdec, hs]

/-- C7 (witness): the amended theorem at the chunk `"  hi  "`. -/
theorem C7_printed_head_is_stripped_decoded_witness :
    (mainLoop [⟨.output [32, 32, 104, 105, 32, 32], .line "go", .ok⟩]).printed.head? =
      some (pyStrip "  hi  " ++ "\n") :=
  C7_printed_head_is_stripped_decoded [32, 32, 104, 105, 32, 32] "  hi  "
    (by decide) (.line "go") .ok []

/-! ## Claim C8: literal patterns and pure substring search -/

/-- C8 (counterexample): the prompt string is compiled as a regular
expression by `p.expect`, so a metacharacter in it is not matched literally:
on the stream `"xa"` the pattern string `"a|b"` reports a match (regex
alternation), while a pure substring search for the literal `"a|b"` finds no
occurrence. -/
theorem C8_claim_counterexample :
    (feedChunks (compilePattern "a|b") [] [String.toList "xa"]).2 = true ∧
      (litSubstringSearch (String.toList "a|b") (String.toList "xa")).2 = false := by
  decide

/-- C8 (amended): `p.expect` compiles the prompt string as a regex, so
metacharacters are interpreted, not matched literally; but for a pattern
string free of metacharacters (no `|` in the modelled fragment) the matcher
coincides with a pure substring search of the literal — in particular it
never reports a match before every byte of the pattern has arrived. -/
theorem C8_no_metachar_substring_search (s : String) (hbar : '|' ∉ s.toList)
    (t : List Char) :
    feedChunks (compilePattern s) [] [t] = litSubstringSearch s.toList t := by
  simp only [compilePattern]
  rw [splitAlts_no_bar hbar]
  have h : reSearchIdx [s.toList] ([] ++ t) = litFirstOccurrence s.toList t := by
    rw [List.nil_append]
    exact reSearchIdx_singleton_eq_lit s.toList t
  simp only [feedChunks, h, litSubstringSearch]
  cases hq : litFirstOccurrence s.toList t with
  | some i => simp
  | none => simp [feedChunks]

/-- C8 (witness): the spec's scenario for the pattern `"db> "`: after only
`"db>"` the matcher reports no match, and after exactly `"db> "` it emits
`""` and reports a match. -/
theorem C8_no_metachar_substring_search_witness :
    feedChunks (compilePattern "db> ") [] [String.toList "db>"] =
        litSubstringSearch (String.toList "db> ") (String.toList "db>") ∧
      (litSubstringSearch (String.toList "db> ") (String.toList "db>")).2 = false ∧
      feedChunks (compilePattern "db> ") [] [String.toList "db> "] =
        litSubstringSearch (String.toList "db> ") (String.toList "db> ") ∧
      litSubstringSearch (String.toList "db> ") (String.toList "db> ") = ([], true) :=
  ⟨C8_no_metachar_substring_search "db> " (by decide) (String.toList "db>"),
    by decide,
    C8_no_metachar_substring_search "db> " (by decide) (String.toList "db> "),
    by decide⟩

/-! ## Claim C9: the mode toggle is frame-preserving -/

/-- C9: the `f4` key-binding handler assigns only `app.editing_mode`: for
every editor state, toggling changes the editing-mode variant (Vi to Emacs
or Emacs to Vi) and leaves the buffer contents and the cursor position
unchanged. -/
theorem C9_toggle_preserves_buffer_and_cursor (st : AppState) :
    (toggleEditingMode st).bufferText = st.bufferText ∧
      (toggleEditingMode st).cursorPosition = st.cursorPosition ∧
      (toggleEditingMode st).editingMode ≠ st.editingMode := by
  obtain ⟨m, b, c⟩ := st
  cases m <;> simp [toggleEditingMode]

/-! ## Claim C10: the literal "exit" line is swallowed -/

/-- C10: in every run of the session loop, the literal line `"exit"` is
never forwarded to the target: the `break` at `repl.py:114-115` fires before
`p.sendline`, so `"exit"` never appears among the sent lines. -/
theorem C10_exit_line_never_forwarded (script : List Iter) :
    "exit" ∉ (mainLoop script).sent := by
  induction script with
  | nil => simp [mainLoop]
  | cons it rest ih =>
    obtain ⟨tg, ans, snd⟩ := it
    cases tg with
    | eof => simp [mainLoop]
    | output bs =>
      cases hdec : utf8Decode bs with
      | none => simp [mainLoop, hdec]
      | some txt =>
        cases ans with
        | sessionEnd => simp [mainLoop, hdec]
        | line s =>
          by_cases hs : s = "exit"
          · simp [mainLoop, hdec, hs]
          · cases snd with
            | brokenPipe => simp [mainLoop, hdec, hs]
            | ok =>
              simp only [mainLoop, hdec, if_neg hs, List.mem_cons, not_or]
              exact ⟨fun h => hs h.symm, ih⟩
